import Mathlib

/-!
Shallow embedding of the routing core of the go-htmx repository: the
route-id deriver `GetRouteId`, the template dispatcher built by
`TemplateHandler` (init-fragment execution, per-request dispatch), the
reload loop of `main`, and the SQL/template helpers `RowsScanner`,
`QueryRows` and `Dict`.
-/

namespace GoHtmx

/-- Lowercasing of one character, modeling Go `unicode.ToLower` on the
ASCII range (the range exercised by this program's route ids); this is
exactly Lean core `Char.toLower`. -/
def lowerChar (c : Char) : Char := Char.toLower c

/-- Models Go `strings.ToLower` (restricted to the ASCII range): lowercase
every character of the string. -/
def lowerString (s : String) : String := ⟨s.data.map lowerChar⟩

/-- Models Go `strings.HasPrefix`. -/
def goHasPrefix (s p : String) : Bool := p.data.isPrefixOf s.data

/-- Models Go `strings.Join`. -/
def joinStr (sep : String) : List String → String
  | [] => ""
  | [s] => s
  | s :: rest => s ++ sep ++ joinStr sep rest

/-- Boolean string comparison `a ≤ b`, computed on the underlying
character lists (Go compares strings byte-lexicographically, which agrees
with code-point order on UTF-8). -/
def strLeB (a b : String) : Bool := ! decide (b.data < a.data)

/-- Insert a string into a ≤-sorted list of strings, keeping it sorted. -/
def insertSorted (s : String) : List String → List String
  | [] => [s]
  | t :: rest => if strLeB s t then s :: t :: rest else t :: insertSorted s rest

/-- Models Go `sort.Strings` (insertion sort; Go's byte-lexicographic
order on UTF-8 strings agrees with code-point order). -/
def sortStrings (l : List String) : List String := l.foldr insertSorted []

/-- An incoming HTTP request, as consumed by the routing core of this
program. `query` is the multiset of query parameters of the request URL
as name/value pairs (`r.URL.Query()` groups them by name); `form` is the
form data available in `r.Form` after `r.ParseForm()` ran (Go fills it
with whatever was parsed even when parsing errors), and `parseFormErr`
records whether `r.ParseForm()` returned a non-nil error. -/
structure Request where
  method : String
  headers : List (String × String)
  query : List (String × String)
  form : List (String × String)
  parseFormErr : Bool

/-- Models Go `http.Header.Get`: header names are matched after MIME
canonicalization, hence case-insensitively; absent headers yield `""`. -/
def headerGet (hs : List (String × String)) (k : String) : String :=
  (((hs.find? (fun p => lowerString p.1 == lowerString k)).map Prod.snd)).getD ""

/-- The occurrence list of query parameter names of a request. -/
def queryNames (r : Request) : List String := r.query.map Prod.fst

/-- Models `maps.Keys(r.URL.Query())` followed by `sort.Strings(keys)` in
`GetRouteId`: the distinct query parameter names, sorted. -/
def queryKeys (r : Request) : List String := sortStrings (queryNames r).dedup

/-- The route key segments after the in-place filter of `GetRouteId`
drops names starting with an underscore (the filter preserves the sorted
order). -/
def routeKeys (r : Request) : List String :=
  (queryKeys r).filter (fun k => ! goHasPrefix k "_")

/-- The mode tag chosen by `GetRouteId` (file `unnamed/part_000`, lines
224-229): `"htmx"` when the `HX-Request` header is exactly `"true"`,
otherwise `"http"`. -/
def modeTag (r : Request) : String :=
  if headerGet r.headers "HX-Request" = "true" then "htmx" else "http"

/-- The parts joined by `GetRouteId`: mode tag, HTTP method, then the
sorted filtered query parameter names. -/
def routeParts (r : Request) : List String :=
  modeTag r :: r.method :: routeKeys r

/-- Embeds `GetRouteId` (file `unnamed/part_000`, lines 223-246): join the
mode tag, the method and the sorted filtered query keys with `"-"` and
lowercase the result. -/
def GetRouteId (r : Request) : String :=
  lowerString (joinStr "-" (routeParts r))

/-- The number of distinct query parameter names of a request that do not
begin with an underscore. -/
def distinctKeyCount (r : Request) : Nat :=
  ((queryNames r).dedup.filter (fun k => ! goHasPrefix k "_")).length

/-- The claim's notion of the query-name set "regardless of casing":
the case-folded set of non-underscore query parameter names, in canonical
(sorted, deduplicated) form. -/
def caseFoldedKeySet (r : Request) : List String :=
  sortStrings ((((queryNames r).filter (fun k => ! goHasPrefix k "_")).map lowerString).dedup)

/-- The observable result of executing one template fragment: the bytes it
wrote, the error `Execute` returned (if any), and the names of the helper
functions from the function table it invoked while running. The template
engine itself (`html/template`) is external to the repository, so a
fragment's behaviour is kept abstract as a function of its input data
(`none` models the `nil` data of init execution). -/
structure FragOut where
  output : String
  err : Option String
  helpers : List String

/-- One named template fragment of a compiled template set. -/
structure Frag where
  run : Option (List (String × String)) → FragOut

/-- A compiled template set: named fragments. Later entries in the list
shadow earlier ones (later template files redefine fragments last-writer
wins), which `lookupTmpl` reflects by searching the reversed list. -/
def TmplSet := List (String × Frag)

/-- Models `tmpl.Lookup(name)`: the fragment registered under `name`, the
most recently defined one taking priority. -/
def lookupTmpl (ts : TmplSet) (name : String) : Option Frag :=
  (ts.reverse.find? (fun p => p.1 == name)).map Prod.snd

/-- Split a list of characters at a separator character. -/
def splitOnChar (sep : Char) : List Char → List (List Char)
  | [] => [[]]
  | c :: rest =>
    match splitOnChar sep rest with
    | [] => [[]]
    | g :: gs => if c = sep then [] :: g :: gs else (c :: g) :: gs

/-- Models `filepath.Base` for the slash-separated relative file names
produced by `fs.Glob` here: the last path component. -/
def pathBase (s : String) : String := ⟨(splitOnChar '/' s.data).getLastD []⟩

/-- Everything before the last dot, when a dot exists. -/
def beforeLastDot : List Char → Option (List Char)
  | [] => none
  | c :: rest =>
    match beforeLastDot rest with
    | some r => some (c :: r)
    | none => if c = '.' then some [] else none

/-- Models `strings.TrimSuffix(name, filepath.Ext(name))`: drop the
extension starting at the last dot, if any. -/
def trimExt (s : String) : String := ⟨(beforeLastDot s.data).getD s.data⟩

/-- The name of the init fragment a template file may provide:
`"init-" + base name of the file without extension` (file
`unnamed/part_000`, lines 179-182). -/
def initName (file : String) : String := "init-" ++ trimExt (pathBase file)

/-- Embeds the init loop of `TemplateHandler` (file `unnamed/part_000`,
lines 179-189): walk the files in order; for each file whose init
fragment exists in the set, execute it with `nil` data and the output
discarded; stop with the error of the first failing execution, otherwise
return the list of init fragment names executed, in order. -/
def runInits (ts : TmplSet) : List String → Except String (List String)
  | [] => .ok []
  | f :: rest =>
    match lookupTmpl ts (initName f) with
    | some t =>
      match (t.run none).err with
      | some e => .error e
      | none => (runInits ts rest).map (initName f :: ·)
    | none => runInits ts rest

/-- The observable outcome of handling one request: the response sent, the
fragments executed, and the helper functions called while handling it. -/
inductive Response where
  | notFound
  | rendered (body : String) (execErr : Option String)
  deriving DecidableEq

/-- What one dispatch did: response plus execution trace. -/
structure Handled where
  resp : Response
  fragsExecuted : List String
  helperCalls : List String
  deriving DecidableEq

/-- Embeds the request handler returned by `TemplateHandler` (file
`unnamed/part_000`, lines 190-220): derive the route id, look it up; on a
hit call `r.ParseForm()` — discarding its error — and execute the
fragment with the request data (whose form values are whatever parsing
made available); on a miss respond not-found without executing anything. -/
def handleRequest (ts : TmplSet) (r : Request) : Handled :=
  match lookupTmpl ts (GetRouteId r) with
  | some t =>
    let out := t.run (some r.form)
    { resp := .rendered out.output out.err
      fragsExecuted := [GetRouteId r]
      helperCalls := out.helpers }
  | none => { resp := .notFound, fragsExecuted := [], helperCalls := [] }

/-- Embeds `TemplateHandler` construction (file `unnamed/part_000`, lines
172-221) after template parsing: run every init fragment eagerly, and
only if all succeed return the request handler; a failing init execution
fails the whole construction. -/
def TemplateHandler (ts : TmplSet) (files : List String) : Except String (Request → Handled) :=
  (runInits ts files).map (fun _ => fun r => handleRequest ts r)

/-- Embeds the `"reload"` arm of the server loop in `main` (file
`unnamed/part_000`, lines 81-90): attempt to build a new handler; on
error keep the previous handler, on success install the new one. -/
def applyReload {η : Type} (handler : η) (built : Except String η) : η :=
  match built with
  | .error _ => handler
  | .ok newHandler => newHandler

/-- The handler serving traffic after a sequence of reload attempts. -/
def applyReloads {η : Type} (handler : η) (builds : List (Except String η)) : η :=
  builds.foldl applyReload handler

/-- The outcome of running a Go function: a normal return value, an error
return, or a runtime panic. -/
inductive GoOutcome (α : Type) where
  | ok (val : α)
  | err (msg : String)
  | panicked (msg : String)
  deriving DecidableEq

/-- The panic message of a method call on a nil pointer. -/
def nilDerefMsg : String := "runtime error: invalid memory address or nil pointer dereference"

/-- A live `*sql.Rows` handle: the successive `Next`/`Scan` steps (a scan
may fail), and the error `Close` will report. -/
structure SqlRows (ρ : Type) where
  rows : List (Except String ρ)
  closeErr : Option String

/-- The scan loop of `RowsScanner` (file `main.go`, lines 239-245):
accumulate scanned rows, stopping with the partial results at the first
scan error. -/
def scanAll {ρ : Type} : List (Except String ρ) → List ρ → List ρ × Option String
  | [], acc => (acc, none)
  | .ok r :: rest, acc => scanAll rest (acc ++ [r])
  | .error e :: _, acc => (acc, some e)

/-- Embeds the closure returned by `RowsScanner` (file `main.go`, lines
229-248). It receives the `(rows, err)` pair of `db.Query` and ignores
the error entirely: it immediately defers `rows.Close()` and iterates
`rows.Next()`. When the query failed, `rows` is nil and the method calls
panic with a nil-pointer dereference. On a live handle it scans all rows
and the deferred close error replaces a nil iteration error. -/
def RowsScanner {ρ : Type} : Option (SqlRows ρ) → Option String → GoOutcome (List ρ × Option String)
  | none, _ => .panicked nilDerefMsg
  | some h, _ =>
    match scanAll h.rows [] with
    | (results, some e) => .ok (results, some e)
    | (results, none) => .ok (results, h.closeErr)

/-- A live `*sqlx.Rows` handle: the rows `MapScan` produces (its error
return is discarded by the caller), and the error `Err()` reports after
iteration. -/
structure SqlxRows (μ : Type) where
  rows : List μ
  iterErr : Option String

/-- Embeds `QueryRows` (file `unnamed/part_003`, lines 42-54): it calls
`db.Queryx` and, without checking the returned error, iterates
`r.Next()`/`r.MapScan`. When the query failed, `r` is nil and `r.Next()`
panics with a nil-pointer dereference. On a live handle it collects all
rows; if the query error was nil it is replaced by `r.Err()`. -/
def QueryRows {μ : Type} : Option (SqlxRows μ) → Option String → GoOutcome (List μ × Option String)
  | none, _ => .panicked nilDerefMsg
  | some h, e =>
    .ok (h.rows, match e with
      | some e' => some e'
      | none => h.iterErr)

/-- The result of a database query as Go's `database/sql` contract
delivers it: either a live rows handle, or an error. -/
inductive QueryOutcome (η : Type) where
  | success (handle : η)
  | failure (msg : String)

/-- The `(rows, err)` pair a query returns: a nil handle together with the
error on failure, the handle and a nil error on success. -/
def queryPair {η : Type} : QueryOutcome η → Option η × Option String
  | .success h => (some h, none)
  | .failure e => (none, some e)

/-- A Go `interface` value as it can appear among the arguments of
the `Dict` template helper: a string, a slice of strings, a map built by
`Dict` itself, or any other value (kept opaque, tagged by a number). -/
inductive GoVal where
  | str (s : String)
  | strs (l : List String)
  | vmap (entries : List (String × GoVal))
  | other (tag : Nat)

/-- A Go `map[string]any`, modeled as an association list with at most
one entry per key (`mapSet` overwrites in place). -/
abbrev GoMap := List (String × GoVal)

/-- Go map assignment `m[k] = v`: replace the existing entry or append. -/
def mapSet : GoMap → String → GoVal → GoMap
  | [], k, v => [(k, v)]
  | (k', v') :: rest, k, v =>
    if k' = k then (k, v) :: rest else (k', v') :: mapSet rest k v

/-- Go map read `m[k]`. -/
def mapGet : GoMap → String → Option GoVal
  | [], _ => none
  | (k', v') :: rest, k => if k' = k then some v' else mapGet rest k

/-- The descent of `Dict` for a slice key (file `unnamed/part_003`, lines
91-103), written functionally: walk the path, reusing an existing nested
map or creating a fresh one, and set the final key; an existing value
that is not a map fails the `v.(map[string]any)` assertion and panics. -/
def setPath : GoMap → List String → String → GoVal → GoOutcome GoMap
  | dict, [], key, v => .ok (mapSet dict key v)
  | dict, p :: rest, key, v =>
    match mapGet dict p with
    | some (GoVal.vmap m) =>
      match setPath m rest key v with
      | .ok m2 => .ok (mapSet dict p (GoVal.vmap m2))
      | .err e => .err e
      | .panicked msg => .panicked msg
    | some _ => .panicked "interface conversion: interface is not map[string]any"
    | none =>
      match setPath [] rest key v with
      | .ok m2 => .ok (mapSet dict p (GoVal.vmap m2))
      | .err e => .err e
      | .panicked msg => .panicked msg

/-- The pair loop of `Dict` (file `unnamed/part_003`, lines 84-108): each
iteration starts again from the root map. A string key assigns at the
root; a slice key descends along its leading elements and assigns its
last element — an empty slice makes `v[len(v)-1]` panic — and any other
key value returns the error `"invalid dictionary key"`. The one-element
case is unreachable because `Dict` has already checked the length is
even. -/
def dictPairs : GoMap → List GoVal → GoOutcome GoMap
  | root, [] => .ok root
  | root, k :: v :: rest =>
    match k with
    | .str s => dictPairs (mapSet root s v) rest
    | .strs [] => .panicked "runtime error: index out of range"
    | .strs (p :: ps) =>
      match setPath root (p :: ps).dropLast ((p :: ps).getLast (by simp)) v with
      | .ok root2 => dictPairs root2 rest
      | .err e => .err e
      | .panicked msg => .panicked msg
    | _ => .err "invalid dictionary key"
  | _, [_] => .err "invalid dictionary call"

/-- Embeds the `Dict` template helper (file `unnamed/part_003`, lines
77-111): reject argument lists of odd length, then fold the key-value
pairs into a fresh map. -/
def Dict (values : List GoVal) : GoOutcome GoMap :=
  if values.length % 2 ≠ 0 then .err "invalid dictionary call"
  else dictPairs [] values

/-- Does an argument list consist of key-value pairs whose keys are all
plain strings? -/
def strKeyed : List GoVal → Bool
  | [] => true
  | GoVal.str _ :: _ :: rest => strKeyed rest
  | _ => false

/-- The map `Dict` builds from an all-string-keyed pair list: successive
Go map assignments starting from `root`. -/
def strFold (root : GoMap) : List GoVal → GoMap
  | GoVal.str s :: v :: rest => strFold (mapSet root s v) rest
  | _ => root

/-- The value of the last pair of the argument list whose key is the
plain string `k`, if any (later pairs overwrite earlier ones). -/
def lastValueFor (k : String) : List GoVal → Option GoVal
  | kk :: v :: rest =>
    match lastValueFor k rest with
    | some r => some r
    | none =>
      match kk with
      | GoVal.str s => if s = k then some v else none
      | _ => none
  | _ => none

/-- Is a value invalid as a `Dict` key (neither a string nor a slice of
strings)? -/
def isBadKey : GoVal → Bool
  | GoVal.str _ => false
  | GoVal.strs _ => false
  | _ => true

/-- The nested map a single slice key builds in a fresh root: one entry
per path element, the value at the end. -/
def nestedSingleton (p : String) (ps : List String) (v : GoVal) : GoMap :=
  match ps with
  | [] => [(p, v)]
  | q :: qs => [(p, GoVal.vmap (nestedSingleton q qs v))]

/-! Lemmas about the sorting and lowercasing primitives. -/

theorem strLeB_iff (a b : String) : strLeB a b = true ↔ a ≤ b := by
  simp [strLeB, String.le_iff_toList_le, String.lt_iff_toList_lt]

theorem insertSorted_perm (s : String) (l : List String) :
    (insertSorted s l).Perm (s :: l) := by
  induction l with
  | nil => simp [insertSorted]
  | cons t rest ih =>
    by_cases h : strLeB s t = true
    · simp [insertSorted, h]
    · simp only [insertSorted, Bool.not_eq_true] at *
      simp [h]
      exact (ih.cons t).trans (List.Perm.swap _ _ _)

theorem sortStrings_perm (l : List String) : (sortStrings l).Perm l := by
  induction l with
  | nil => simp [sortStrings]
  | cons t rest ih =>
    simp only [sortStrings, List.foldr_cons]
    exact (insertSorted_perm t _).trans (ih.cons t)

theorem insertSorted_sorted (s : String) (l : List String) (h : List.Sorted (· ≤ ·) l) :
    List.Sorted (· ≤ ·) (insertSorted s l) := by
  induction l with
  | nil => simp [insertSorted]
  | cons t rest ih =>
    rw [List.sorted_cons] at h
    by_cases hc : strLeB s t = true
    · have hle : s ≤ t := (strLeB_iff s t).mp hc
      have heq : insertSorted s (t :: rest) = s :: t :: rest := by
        simp [insertSorted, hc]
      rw [heq, List.sorted_cons]
      constructor
      · intro b hb
        rcases List.mem_cons.mp hb with rfl | hb
        · exact hle
        · exact le_trans hle (h.1 b hb)
      · exact List.sorted_cons.mpr h
    · have hts : t ≤ s := by
        rcases le_total s t with hh | hh
        · exact absurd ((strLeB_iff s t).mpr hh) hc
        · exact hh
      have heq : insertSorted s (t :: rest) = t :: insertSorted s rest := by
        simp [insertSorted, hc]
      rw [heq, List.sorted_cons]
      refine ⟨?_, ih h.2⟩
      intro b hb
      have := (insertSorted_perm s rest).mem_iff.mp hb
      rcases List.mem_cons.mp this with rfl | hb2
      · exact hts
      · exact h.1 b hb2

theorem sortStrings_sorted (l : List String) : List.Sorted (· ≤ ·) (sortStrings l) := by
  induction l with
  | nil => simp [sortStrings]
  | cons t rest ih => exact insertSorted_sorted t _ ih

theorem sorted_nodup_ext_eq (l₁ l₂ : List String) (h₁ : l₁.Nodup) (h₂ : l₂.Nodup)
    (hs₁ : List.Sorted (· ≤ ·) l₁) (hs₂ : List.Sorted (· ≤ ·) l₂)
    (hm : ∀ a, a ∈ l₁ ↔ a ∈ l₂) : l₁ = l₂ :=
  List.eq_of_perm_of_sorted ((List.perm_ext_iff_of_nodup h₁ h₂).mpr hm) hs₁ hs₂

theorem lowerChar_idem (c : Char) : lowerChar (lowerChar c) = lowerChar c := by
  unfold lowerChar Char.toLower
  by_cases h : Char.toNat c ≥ 65 ∧ Char.toNat c ≤ 90
  · rw [if_pos h]
    have hv : (Char.ofNat (Char.toNat c + 32)).toNat = Char.toNat c + 32 := by
      have hval : Nat.isValidChar (Char.toNat c + 32) := Or.inl (by omega)
      simp only [Char.ofNat, hval, dif_pos]
      rfl
    rw [if_neg]
    rw [hv]
    omega
  · rw [if_neg h, if_neg h]

theorem lowerString_idem (s : String) : lowerString (lowerString s) = lowerString s := by
  cases s with
  | mk l =>
    show String.mk ((l.map lowerChar).map lowerChar) = String.mk (l.map lowerChar)
    rw [List.map_map]
    congr 1
    exact List.map_congr_left (fun a _ => lowerChar_idem a)

/-! Lemmas about the route key pipeline of `GetRouteId`. -/

theorem mem_routeKeys (r : Request) (a : String) :
    a ∈ routeKeys r ↔ (a ∈ queryNames r ∧ goHasPrefix a "_" = false) := by
  simp [routeKeys, queryKeys, List.mem_filter, (sortStrings_perm _).mem_iff,
    List.mem_dedup, Bool.not_eq_true']

theorem routeKeys_nodup (r : Request) : (routeKeys r).Nodup :=
  (((sortStrings_perm _).nodup_iff).mpr (List.nodup_dedup _)).filter _

theorem routeKeys_sorted (r : Request) : List.Sorted (· ≤ ·) (routeKeys r) :=
  (sortStrings_sorted _).filter _

theorem routeKeys_ext (r₁ r₂ : Request)
    (hm : ∀ s, (s ∈ queryNames r₁ ∧ goHasPrefix s "_" = false) ↔
               (s ∈ queryNames r₂ ∧ goHasPrefix s "_" = false)) :
    routeKeys r₁ = routeKeys r₂ :=
  sorted_nodup_ext_eq _ _ (routeKeys_nodup r₁) (routeKeys_nodup r₂)
    (routeKeys_sorted r₁) (routeKeys_sorted r₂)
    (fun a => (mem_routeKeys r₁ a).trans ((hm a).trans (mem_routeKeys r₂ a).symm))

theorem modeTag_congr (r₁ r₂ : Request)
    (hh : headerGet r₁.headers "HX-Request" = "true" ↔
          headerGet r₂.headers "HX-Request" = "true") :
    modeTag r₁ = modeTag r₂ := by
  unfold modeTag
  by_cases h : headerGet r₁.headers "HX-Request" = "true"
  · rw [if_pos h, if_pos (hh.mp h)]
  · rw [if_neg h, if_neg (fun h2 => h (hh.mpr h2))]

theorem getRouteId_congr (r₁ r₂ : Request)
    (hmeth : r₁.method = r₂.method)
    (hh : headerGet r₁.headers "HX-Request" = "true" ↔
          headerGet r₂.headers "HX-Request" = "true")
    (hm : ∀ s, (s ∈ queryNames r₁ ∧ goHasPrefix s "_" = false) ↔
               (s ∈ queryNames r₂ ∧ goHasPrefix s "_" = false)) :
    GetRouteId r₁ = GetRouteId r₂ := by
  unfold GetRouteId routeParts
  rw [modeTag_congr r₁ r₂ hh, hmeth, routeKeys_ext r₁ r₂ hm]

theorem routeKeys_length (r : Request) : (routeKeys r).length = distinctKeyCount r :=
  (((sortStrings_perm (queryNames r).dedup).filter _).length_eq)

/-- C1 counterexample: two GET requests with no marker header whose
non-underscore query-name sets agree up to casing — `B, a` versus
`a, b` — derive different route ids (`http-get-b-a` versus
`http-get-a-b`), because `GetRouteId` sorts the names case-sensitively
before lowercasing the joined string. -/
theorem routeid_casing_counterexample :
    (Request.mk "GET" [] [("B", ""), ("a", "")] [] false).method
      = (Request.mk "GET" [] [("a", ""), ("b", "")] [] false).method ∧
    (headerGet (Request.mk "GET" [] [("B", ""), ("a", "")] [] false).headers "HX-Request" = "true" ↔
      headerGet (Request.mk "GET" [] [("a", ""), ("b", "")] [] false).headers "HX-Request" = "true") ∧
    caseFoldedKeySet (Request.mk "GET" [] [("B", ""), ("a", "")] [] false)
      = caseFoldedKeySet (Request.mk "GET" [] [("a", ""), ("b", "")] [] false) ∧
    GetRouteId (Request.mk "GET" [] [("B", ""), ("a", "")] [] false)
      ≠ GetRouteId (Request.mk "GET" [] [("a", ""), ("b", "")] [] false) :=
  ⟨rfl, Iff.rfl, by decide, by decide⟩

/-- C1 (amended): the route id depends only on the method, the truthiness
of the `HX-Request` marker header, and the exact (case-sensitive) set of
query-parameter names not beginning with an underscore — it is invariant
under parameter order, parameter values and duplicate occurrences of a
name, but not under changes of name casing. -/
theorem routeid_keyset_invariance (r₁ r₂ : Request)
    (hmeth : r₁.method = r₂.method)
    (hh : headerGet r₁.headers "HX-Request" = "true" ↔
          headerGet r₂.headers "HX-Request" = "true")
    (hm : ∀ s, (s ∈ queryNames r₁ ∧ goHasPrefix s "_" = false) ↔
               (s ∈ queryNames r₂ ∧ goHasPrefix s "_" = false)) :
    GetRouteId r₁ = GetRouteId r₂ :=
  getRouteId_congr r₁ r₂ hmeth hh hm

/-- Witness for the amended C1: two requests with the same name set but
different parameter order, duplicate occurrences, values and extra
non-marker headers derive the same route id. -/
theorem routeid_keyset_invariance_witness :
    GetRouteId (Request.mk "GET" [] [("a", "1"), ("b", "2"), ("a", "3")] [] false)
      = GetRouteId (Request.mk "GET" [("X", "y")] [("b", ""), ("a", ""), ("b", "")] [] false) :=
  routeid_keyset_invariance _ _ rfl (by decide)
    (by intro s; simp only [queryNames, List.map_cons, List.map_nil, List.mem_cons,
          List.not_mem_nil, or_false]; tauto)

/-- C2: names beginning with an underscore are excluded from the derived
route id — dropping all underscore-prefixed query parameters from a
request never changes its route id — and the concrete request with
marker header `"true"`, method DELETE and query `?id=5&_cache=123`
derives `"htmx-delete-id"`. -/
theorem underscore_params_excluded :
    (∀ r : Request, GetRouteId r
        = GetRouteId (Request.mk r.method r.headers
            (r.query.filter (fun p => ! goHasPrefix p.1 "_")) r.form r.parseFormErr)) ∧
    GetRouteId ⟨"DELETE", [("HX-Request", "true")], [("id", "5"), ("_cache", "123")], [], false⟩
      = "htmx-delete-id" := by
  constructor
  · intro r
    refine getRouteId_congr _ _ rfl Iff.rfl ?_
    intro s
    constructor
    · rintro ⟨hmem, hp⟩
      refine ⟨?_, hp⟩
      simp only [queryNames, List.mem_map] at hmem ⊢
      obtain ⟨p, hp2, rfl⟩ := hmem
      exact ⟨p, List.mem_filter.mpr ⟨hp2, by simp [hp]⟩, rfl⟩
    · rintro ⟨hmem, hp⟩
      refine ⟨?_, hp⟩
      simp only [queryNames, List.mem_map] at hmem ⊢
      obtain ⟨p, hp2, rfl⟩ := hmem
      exact ⟨p, (List.mem_filter.mp hp2).1, rfl⟩
  · decide

/-- C3: the route id is the lowercased hyphen-join of `2 + k` segments —
mode tag, HTTP method, then the `k` distinct non-underscore query
parameter names in sorted order — and it is entirely lowercase
(lowercasing it again changes nothing). -/
theorem routeid_shape (r : Request) :
    GetRouteId r = lowerString (joinStr "-" (routeParts r)) ∧
    routeParts r = modeTag r :: r.method :: routeKeys r ∧
    (routeParts r).length = 2 + distinctKeyCount r ∧
    lowerString (GetRouteId r) = GetRouteId r := by
  refine ⟨rfl, rfl, ?_, ?_⟩
  · simp only [routeParts, List.length_cons, routeKeys_length]
    omega
  · unfold GetRouteId
    exact lowerString_idem _

/-- C4: the mode prefix of the derived route id is the partial-mode tag
`"htmx"` exactly when the `HX-Request` header has the exact value
`"true"`; any other value or an absent header yields the full-page tag
`"http"`; and the concrete request with no marker header, method POST
and query `?nav` derives `"http-post-nav"`. -/
theorem routeid_mode_marker (r : Request) :
    GetRouteId r = lowerString (joinStr "-" (modeTag r :: r.method :: routeKeys r)) ∧
    (modeTag r = "htmx" ↔ headerGet r.headers "HX-Request" = "true") ∧
    (¬ headerGet r.headers "HX-Request" = "true" → modeTag r = "http") ∧
    GetRouteId ⟨"POST", [], [("nav", "")], [], false⟩ = "http-post-nav" := by
  refine ⟨rfl, ?_, ?_, by decide⟩
  · unfold modeTag
    by_cases h : headerGet r.headers "HX-Request" = "true"
    · simp [h]
    · rw [if_neg h]
      constructor
      · intro habs
        exact absurd habs (by decide)
      · intro habs
        exact absurd habs h
  · intro h
    unfold modeTag
    rw [if_neg h]

/-- Witness for C4: a request without the marker header gets the
full-page tag. -/
theorem routeid_mode_marker_witness :
    modeTag ⟨"POST", [], [("nav", "")], [], false⟩ = "http" :=
  (routeid_mode_marker ⟨"POST", [], [("nav", "")], [], false⟩).2.2.1 (by decide)

/-! Lemmas about the init loop of `TemplateHandler`. -/

theorem runInits_ok_trace (ts : TmplSet) :
    ∀ (files : List String) (tr : List String), runInits ts files = Except.ok tr →
      tr = (files.map initName).filter (fun n => (lookupTmpl ts n).isSome) := by
  intro files
  induction files with
  | nil =>
    intro tr h
    simp [runInits] at h
    subst h
    rfl
  | cons f rest ih =>
    intro tr h
    rw [runInits] at h
    cases hl : lookupTmpl ts (initName f) with
    | none =>
      simp only [hl] at h
      simp [hl, ih tr h]
    | some t =>
      simp only [hl] at h
      cases he : (t.run none).err with
      | some e => simp only [he] at h; cases h
      | none =>
        simp only [he] at h
        cases hr : runInits ts rest with
        | error e => rw [hr] at h; cases h
        | ok tr' =>
          rw [hr] at h
          cases h
          simp [hl, ih tr' hr]

theorem runInits_ok_init_success (ts : TmplSet) :
    ∀ (files : List String) (tr : List String), runInits ts files = Except.ok tr →
      ∀ f ∈ files, ∀ t, lookupTmpl ts (initName f) = some t → (t.run none).err = none := by
  intro files
  induction files with
  | nil =>
    intro tr _ f hf
    cases hf
  | cons f rest ih =>
    intro tr h f' hf' t ht
    rw [runInits] at h
    cases hl : lookupTmpl ts (initName f) with
    | none =>
      simp only [hl] at h
      rcases List.mem_cons.mp hf' with rfl | hf2
      · rw [hl] at ht; cases ht
      · exact ih tr h f' hf2 t ht
    | some t0 =>
      simp only [hl] at h
      cases he : (t0.run none).err with
      | some e => simp only [he] at h; cases h
      | none =>
        simp only [he] at h
        cases hr : runInits ts rest with
        | error e => rw [hr] at h; cases h
        | ok tr' =>
          rcases List.mem_cons.mp hf' with rfl | hf2
          · rw [hl] at ht
            cases ht
            exact he
          · exact ih tr' hr f' hf2 t ht

theorem templateHandler_error_of_runInits_error (ts : TmplSet) (files : List String)
    (e : String) (h : runInits ts files = Except.error e) :
    TemplateHandler ts files = Except.error e := by
  unfold TemplateHandler
  rw [h]
  rfl

/-- C5: init fragments run eagerly at handler construction. On a
successful construction the executed init fragments are exactly those
named `init-` plus a file's base name, one per file and in file order
(so each runs exactly once when the file base names are distinct); a
failing init execution fails the whole construction with that error and
no handler is returned; and whenever a handler is returned, every init
fragment of the file list executed without error beforehand. -/
theorem init_fragments_run_eagerly (ts : TmplSet) (files : List String) :
    (∀ tr, runInits ts files = Except.ok tr →
      tr = (files.map initName).filter (fun n => (lookupTmpl ts n).isSome)) ∧
    (∀ tr, runInits ts files = Except.ok tr → (files.map initName).Nodup → tr.Nodup) ∧
    (∀ e, runInits ts files = Except.error e → TemplateHandler ts files = Except.error e) ∧
    (∀ h, TemplateHandler ts files = Except.ok h →
      ∀ f ∈ files, ∀ t, lookupTmpl ts (initName f) = some t → (t.run none).err = none) := by
  refine ⟨fun tr h => runInits_ok_trace ts files tr h, ?_, ?_, ?_⟩
  · intro tr h hnd
    rw [runInits_ok_trace ts files tr h]
    exact hnd.filter _
  · intro e h
    exact templateHandler_error_of_runInits_error ts files e h
  · intro h hok f hf t ht
    unfold TemplateHandler at hok
    cases hr : runInits ts files with
    | error e => rw [hr] at hok; cases hok
    | ok tr => exact runInits_ok_init_success ts files tr hr f hf t ht

/-- Witness for C5: a one-file set whose init fragment succeeds builds a
handler after executing exactly that init fragment. -/
theorem init_fragments_run_eagerly_witness :
    ["init-todos"] = ((["todos.html"].map initName).filter
      (fun n => (lookupTmpl [("init-todos", Frag.mk (fun _ => FragOut.mk "" none []))] n).isSome)) :=
  (init_fragments_run_eagerly [("init-todos", Frag.mk (fun _ => FragOut.mk "" none []))]
    ["todos.html"]).1 ["init-todos"] rfl

/-- C6: a reload whose rebuild fails leaves the previously installed
handler serving, unchanged; a new handler is installed only when its
construction succeeds. -/
theorem reload_keeps_old_handler_on_failure :
    ∀ (η : Type) (h : η) (e : String) (h' : η) (bs : List (Except String η)),
      applyReload h (Except.error e) = h ∧
      applyReload h (Except.ok h') = h' ∧
      applyReloads h (bs ++ [Except.error e]) = applyReloads h bs := by
  intro η h e h' bs
  refine ⟨rfl, rfl, ?_⟩
  simp [applyReloads, List.foldl_append, applyReload]

/-- C7: when the derived route id has no fragment in the template set,
the handler responds not-found, executes no fragment and calls no helper. -/
theorem dispatch_miss_not_found (ts : TmplSet) (r : Request)
    (h : lookupTmpl ts (GetRouteId r) = none) :
    handleRequest ts r = ⟨Response.notFound, [], []⟩ := by
  unfold handleRequest
  rw [h]

/-- Witness for C7: dispatching against an empty template set misses. -/
theorem dispatch_miss_not_found_witness :
    handleRequest ([] : TmplSet) ⟨"GET", [], [], [], false⟩ = ⟨Response.notFound, [], []⟩ :=
  dispatch_miss_not_found ([] : TmplSet) ⟨"GET", [], [], [], false⟩ rfl

/-- C8: on a dispatch hit, a form/query parse failure is swallowed — the
matched fragment still executes, with whatever (possibly empty) form
data is available, and the response is its render result, never a
failure response for the parse error. -/
theorem parse_error_swallowed (ts : TmplSet) (r : Request) (t : Frag)
    (_hperr : r.parseFormErr = true)
    (hhit : lookupTmpl ts (GetRouteId r) = some t) :
    handleRequest ts r =
      ⟨Response.rendered (t.run (some r.form)).output (t.run (some r.form)).err,
        [GetRouteId r], (t.run (some r.form)).helpers⟩ ∧
    (handleRequest ts r).resp ≠ Response.notFound := by
  unfold handleRequest
  rw [hhit]
  exact ⟨rfl, fun hab => Response.noConfusion hab⟩

/-- Witness for C8: a request whose form parsing failed still renders the
matched fragment. -/
theorem parse_error_swallowed_witness :
    handleRequest [("http-get", Frag.mk (fun _ => FragOut.mk "ok" none []))]
        ⟨"GET", [], [], [], true⟩
      = ⟨Response.rendered "ok" none, ["http-get"], []⟩ :=
  (parse_error_swallowed [("http-get", Frag.mk (fun _ => FragOut.mk "ok" none []))]
    ⟨"GET", [], [], [], true⟩ (Frag.mk (fun _ => FragOut.mk "ok" none [])) rfl rfl).1

/-- C9: both row-collection helpers dereference the rows handle a failed
query returns — which is nil — without checking the error first, so a
failed query panics with a nil-pointer dereference instead of returning
the error. -/
theorem failed_query_panics (ρ μ : Type) (e : String) :
    @RowsScanner ρ (@queryPair (SqlRows ρ) (QueryOutcome.failure e)).1
        (@queryPair (SqlRows ρ) (QueryOutcome.failure e)).2 = GoOutcome.panicked nilDerefMsg ∧
    @QueryRows μ (@queryPair (SqlxRows μ) (QueryOutcome.failure e)).1
        (@queryPair (SqlxRows μ) (QueryOutcome.failure e)).2 = GoOutcome.panicked nilDerefMsg ∧
    (∀ res, @RowsScanner ρ (@queryPair (SqlRows ρ) (QueryOutcome.failure e)).1
        (@queryPair (SqlRows ρ) (QueryOutcome.failure e)).2 ≠ GoOutcome.ok res) ∧
    (∀ res, @QueryRows μ (@queryPair (SqlxRows μ) (QueryOutcome.failure e)).1
        (@queryPair (SqlxRows μ) (QueryOutcome.failure e)).2 ≠ GoOutcome.ok res) :=
  ⟨rfl, rfl, fun _ h => GoOutcome.noConfusion h, fun _ h => GoOutcome.noConfusion h⟩

/-! Lemmas about the `Dict` template helper. -/

theorem strKeyed_even : ∀ (vs : List GoVal), strKeyed vs = true → vs.length % 2 = 0
  | [], _ => rfl
  | GoVal.str _ :: _ :: rest, h => by
    have := strKeyed_even rest h
    simp [List.length_cons]
    omega
  | GoVal.str _ :: [], h => by simp [strKeyed] at h
  | GoVal.strs _ :: _, h => by simp [strKeyed] at h
  | GoVal.vmap _ :: _, h => by simp [strKeyed] at h
  | GoVal.other _ :: _, h => by simp [strKeyed] at h

theorem dictPairs_append_str (tail : List GoVal) :
    ∀ (vs : List GoVal) (root : GoMap), strKeyed vs = true →
      dictPairs root (vs ++ tail) = dictPairs (strFold root vs) tail
  | [], root, _ => by simp [strFold]
  | GoVal.str s :: v :: rest, root, h => by
    show dictPairs root (GoVal.str s :: v :: (rest ++ tail)) = _
    rw [dictPairs]
    have hrec := dictPairs_append_str tail rest (mapSet root s v) h
    simpa [strFold] using hrec
  | GoVal.str _ :: [], root, h => by simp [strKeyed] at h
  | GoVal.strs _ :: _, root, h => by simp [strKeyed] at h
  | GoVal.vmap _ :: _, root, h => by simp [strKeyed] at h
  | GoVal.other _ :: _, root, h => by simp [strKeyed] at h

theorem mapGet_mapSet (m : GoMap) (s : String) (v : GoVal) (k : String) :
    mapGet (mapSet m s v) k = if s = k then some v else mapGet m k := by
  induction m with
  | nil => simp [mapSet, mapGet]
  | cons p rest ih =>
    obtain ⟨k', v'⟩ := p
    by_cases h1 : k' = s
    · subst h1
      simp only [mapSet, if_pos rfl]
      by_cases h2 : k' = k
      · subst h2; simp [mapGet]
      · simp [mapGet, h2]
    · simp only [mapSet, if_neg h1]
      by_cases h2 : k' = k
      · subst h2
        have hsk : ¬ s = k' := fun hh => h1 hh.symm
        simp [mapGet, hsk]
      · simp [mapGet, h2, ih]

theorem mapGet_strFold :
    ∀ (vs : List GoVal) (root : GoMap) (k : String), strKeyed vs = true →
      mapGet (strFold root vs) k =
        match lastValueFor k vs with
        | some r => some r
        | none => mapGet root k
  | [], root, k, _ => by simp [strFold, lastValueFor]
  | GoVal.str s :: v :: rest, root, k, h => by
    show mapGet (strFold (mapSet root s v) rest) k = _
    rw [mapGet_strFold rest (mapSet root s v) k h]
    rw [lastValueFor]
    cases hl : lastValueFor k rest with
    | some r => simp [hl]
    | none =>
      simp only [hl]
      rw [mapGet_mapSet]
      by_cases hsk : s = k <;> simp [hsk]
  | GoVal.str _ :: [], root, k, h => by simp [strKeyed] at h
  | GoVal.strs _ :: _, root, k, h => by simp [strKeyed] at h
  | GoVal.vmap _ :: _, root, k, h => by simp [strKeyed] at h
  | GoVal.other _ :: _, root, k, h => by simp [strKeyed] at h

theorem dict_odd_err (vs : List GoVal) (h : vs.length % 2 = 1) :
    Dict vs = GoOutcome.err "invalid dictionary call" := by
  unfold Dict
  rw [if_pos]
  omega

theorem dict_all_string_keys (vs : List GoVal) (h : strKeyed vs = true) :
    Dict vs = GoOutcome.ok (strFold [] vs) ∧
    ∀ k, mapGet (strFold [] vs) k = lastValueFor k vs := by
  constructor
  · unfold Dict
    rw [if_neg]
    · have h2 := dictPairs_append_str [] vs [] h
      simpa using h2
    · have := strKeyed_even vs h
      omega
  · intro k
    rw [mapGet_strFold vs [] k h]
    cases hl : lastValueFor k vs <;> simp [mapGet]

theorem dict_bad_key_err (pre : List GoVal) (k v : GoVal) (rest : List GoVal)
    (hpre : strKeyed pre = true) (hbad : isBadKey k = true) (hrest : rest.length % 2 = 0) :
    Dict (pre ++ k :: v :: rest) = GoOutcome.err "invalid dictionary key" := by
  unfold Dict
  rw [if_neg]
  · rw [dictPairs_append_str _ pre [] hpre]
    cases k with
    | str s => simp [isBadKey] at hbad
    | strs l => simp [isBadKey] at hbad
    | vmap m => rfl
    | other t => rfl
  · have := strKeyed_even pre hpre
    simp only [List.length_append, List.length_cons]
    omega

theorem dict_empty_slice_panic (pre : List GoVal) (v : GoVal) (rest : List GoVal)
    (hpre : strKeyed pre = true) (hrest : rest.length % 2 = 0) :
    Dict (pre ++ GoVal.strs [] :: v :: rest)
      = GoOutcome.panicked "runtime error: index out of range" := by
  unfold Dict
  rw [if_neg]
  · rw [dictPairs_append_str _ pre [] hpre]
    rfl
  · have := strKeyed_even pre hpre
    simp only [List.length_append, List.length_cons]
    omega

theorem setPath_fresh : ∀ (p : String) (ps : List String) (v : GoVal),
    setPath [] (p :: ps).dropLast ((p :: ps).getLast (by simp)) v
      = GoOutcome.ok (nestedSingleton p ps v)
  | p, [], v => rfl
  | p, q :: qs, v => by
    have hd : (p :: q :: qs).dropLast = p :: (q :: qs).dropLast := rfl
    have hg : (p :: q :: qs).getLast (by simp) = (q :: qs).getLast (by simp) :=
      List.getLast_cons (by simp)
    rw [hd, hg, setPath]
    simp only [mapGet]
    rw [setPath_fresh q qs v]
    rfl

theorem dict_single_slice_ok (p : String) (ps : List String) (v : GoVal) :
    Dict [GoVal.strs (p :: ps), v] = GoOutcome.ok (nestedSingleton p ps v) := by
  unfold Dict
  rw [if_neg (by simp)]
  rw [dictPairs]
  rw [setPath_fresh p ps v]
  rfl

/-- C10 counterexample: `Dict` does not keep every given key-value pair —
a duplicated string key keeps only the last value — and an even-length
argument list with valid keys need not produce a map at all: an empty
string-slice key panics (index out of range), a slice key whose path
meets an existing non-map value panics on the type assertion, and a list
containing an invalid key after such a panicking pair never returns the
"invalid dictionary key" error. -/
theorem dict_pair_presence_counterexample :
    Dict [GoVal.str "a", GoVal.other 1, GoVal.str "a", GoVal.other 2]
      = GoOutcome.ok [("a", GoVal.other 2)] ∧
    mapGet [("a", GoVal.other 2)] "a" ≠ some (GoVal.other 1) ∧
    Dict [GoVal.strs [], GoVal.other 1]
      = GoOutcome.panicked "runtime error: index out of range" ∧
    Dict [GoVal.str "a", GoVal.other 1, GoVal.strs ["a", "b"], GoVal.other 2]
      = GoOutcome.panicked "interface conversion: interface is not map[string]any" ∧
    (∀ m, Dict [GoVal.strs [], GoVal.other 1, GoVal.other 9, GoVal.other 2]
      ≠ GoOutcome.err m) := by
  refine ⟨rfl, ?_, rfl, rfl, ?_⟩
  · intro hab
    simp [mapGet] at hab
  · intro m hab
    exact GoOutcome.noConfusion hab

/-- C10 (amended): `Dict` returns the error "invalid dictionary call" on
an odd-length argument list; on an even-length list it processes pairs
left to right, returning the error "invalid dictionary key" when it
reaches a key that is neither a string nor a slice of strings after
pairs with plain string keys; an empty string-slice key panics (index
out of range) instead of erring; for a list whose keys are all plain
strings it returns a map holding, for each key, the last value given for
that key (later pairs overwrite earlier ones); and a single nonempty
string-slice key produces the corresponding nested maps. -/
theorem dict_behaviour :
    (∀ vs : List GoVal, vs.length % 2 = 1 →
      Dict vs = GoOutcome.err "invalid dictionary call") ∧
    (∀ (pre : List GoVal) (k v : GoVal) (rest : List GoVal), strKeyed pre = true →
      isBadKey k = true → rest.length % 2 = 0 →
      Dict (pre ++ k :: v :: rest) = GoOutcome.err "invalid dictionary key") ∧
    (∀ (pre : List GoVal) (v : GoVal) (rest : List GoVal), strKeyed pre = true →
      rest.length % 2 = 0 →
      Dict (pre ++ GoVal.strs [] :: v :: rest)
        = GoOutcome.panicked "runtime error: index out of range") ∧
    (∀ vs : List GoVal, strKeyed vs = true →
      Dict vs = GoOutcome.ok (strFold [] vs) ∧
      ∀ k, mapGet (strFold [] vs) k = lastValueFor k vs) ∧
    (∀ (p : String) (ps : List String) (v : GoVal),
      Dict [GoVal.strs (p :: ps), v] = GoOutcome.ok (nestedSingleton p ps v)) :=
  ⟨dict_odd_err, dict_bad_key_err, dict_empty_slice_panic, dict_all_string_keys,
    dict_single_slice_ok⟩

/-- Witness for the amended C10: a two-argument call with a string key
builds the singleton map. -/
theorem dict_behaviour_witness :
    Dict [GoVal.str "x", GoVal.other 7] = GoOutcome.ok [("x", GoVal.other 7)] :=
  (dict_behaviour.2.2.2.1 [GoVal.str "x", GoVal.other 7] rfl).1

end GoHtmx
